import Mathlib

/-!
Verification development for the transaction anomaly-scoring engine
(`backend/services/anomaly_engine.py`, duplicated in `streamlit2.py`).

The engine is a pure batch transform.  We embed the dataframe as a list of
typed records together with the list of column names present, and translate
each pandas step of `process_transactions` into an executable Lean function:

* timestamp handling and the (stable) sort by (sender_account, timestamp);
* the per-account checks (amount z-score, new device, new IP, location
  change, off-hour) computed per row from its account group and the rows
  before it, exactly as `groupby(...).transform`, `duplicated()`, `shift(1)`
  and the dominant-hour pipeline do;
* the velocity simulation (sessions of 5, at most 100, synthetic timestamps
  10 s apart, re-sort by session id string then synthetic timestamp with
  unsessioned rows last, cumcount per session, fire at count >= 3);
* the score aggregation, dynamic threshold, reasons builder and metadata.

Timestamps are modelled as already-parsed epoch seconds (`Nat`); amounts as
`ℚ`.  Since pandas `x.std()` is the sample standard deviation and the code
compares `(x - mean)/std >= 1` only when `std > 0`, the boolean amount check
is encoded square-root-free as `0 < var ∧ mean ≤ x ∧ var ≤ (x - mean)^2`;
its equivalence with the real-valued z-score condition is proved below.
-/

set_option maxRecDepth 8000

/-- One transaction record.  Field values are the parsed column values; a
column that is absent from the batch simply carries an unused default, and
all feature decisions are made from the column-name list of the batch. -/
structure Txn where
  txnId : Nat
  account : String
  timestamp : Nat
  amount : ℚ
  deviceHash : String
  ipAddress : String
  location : String
deriving DecidableEq

/-- A dataframe: the declared column names plus the ordered records. -/
structure DF where
  cols : List String
  rows : List Txn
deriving DecidableEq

/-- Resolution of the `available_features=None` default: the code uses
`set(df.columns)` when no feature set is passed. -/
def featureList (df : DF) (af : Option (List String)) : List String :=
  af.getD df.cols

def hasTimestamp (fs : List String) : Bool := fs.contains "timestamp"

def hasAmount (fs : List String) : Bool := fs.contains "amount"

def hasDevice (fs : List String) : Bool := fs.contains "device_hash"

def hasIp (fs : List String) : Bool := fs.contains "ip_address"

def hasLocation (fs : List String) : Bool := fs.contains "location"

/-- Hour-of-day of a UTC epoch-second timestamp, as `.dt.hour` computes. -/
def hourOf (ts : Nat) : Nat := ts / 3600 % 24

/-- Stable insertion step: the new element goes after every element it is
`le`-greater-or-equal to, so equal keys keep their original order, matching
the stable lexsort pandas uses for multi-column `sort_values`. -/
def insertSorted (le : α → α → Bool) (x : α) : List α → List α
  | [] => [x]
  | y :: ys => if le y x then y :: insertSorted le x ys else x :: y :: ys

/-- Stable sort by the boolean relation `le` (insertion sort). -/
def sortBy (le : α → α → Bool) (xs : List α) : List α :=
  xs.foldl (fun acc x => insertSorted le x acc) []

/-- Lexicographic comparison of character lists by code point. -/
def charListLt : List Char → List Char → Bool
  | [], [] => false
  | [], _ :: _ => true
  | _ :: _, [] => false
  | a :: as, b :: bs =>
    if a.toNat < b.toNat then true
    else if b.toNat < a.toNat then false
    else charListLt as bs

/-- Strict lexicographic string order by code point: the order Python (and
hence pandas `sort_values` on object columns) uses to compare strings. -/
def strLt (a b : String) : Bool := charListLt a.data b.data

/-- Sort key of `df.sort_values(["sender_account", "timestamp"])`. -/
def txnLe (a b : Txn) : Bool :=
  strLt a.account b.account ||
    (a.account == b.account && decide (a.timestamp ≤ b.timestamp))

/-- The batch in processing order: sorted by (account, timestamp) when the
timestamp feature is available, otherwise left in input order. -/
def sortedTxns (df : DF) (fs : List String) : List Txn :=
  if hasTimestamp fs then sortBy txnLe df.rows else df.rows

/-- Sum of a list of rationals. -/
def qsum (xs : List ℚ) : ℚ := xs.foldr (· + ·) 0

/-- Group mean, as `x.mean()`. -/
def mean (xs : List ℚ) : ℚ := qsum xs / (xs.length : ℚ)

/-- Sample variance with `ddof = 1`, the square of pandas `x.std()`.  For a
single-element group the denominator is `0`, and rational division by zero
yields `0`, which correctly makes the `std > 0` guard fail, exactly as the
`NaN > 0` comparison does in pandas. -/
def sampleVar (xs : List ℚ) : ℚ :=
  qsum (xs.map (fun x => (x - mean xs) ^ 2)) / ((xs.length : ℚ) - 1)

/-- The amount check `(x - x.mean()) / x.std() >= 1 if x.std() > 0 else
False`, written without the square root: when the variance is positive,
`(x - mean)/sqrt var >= 1` holds iff `mean <= x` and `var <= (x - mean)^2`.
The equivalence with the z-score form is proved in the C7 theorem. -/
def riskAmount (xs : List ℚ) (x : ℚ) : Bool :=
  decide (0 < sampleVar xs) && decide (mean xs ≤ x) &&
    decide (sampleVar xs ≤ (x - mean xs) ^ 2)

/-- Number of records of the group that fall in hour `h`. -/
def hourCount (hs : List Nat) (h : Nat) : Nat := hs.countP (fun x => x == h)

/-- Dominant hour of an account: the `groupby(["sender_account","hour"])
.size()` table is sorted by hour ascending, then stably re-sorted by count
descending, and `head(1)` takes the first row, i.e. the smallest hour among
those with maximal count.  The fold scans hours `0..23` in ascending order
and replaces the best hour only on a strictly larger count. -/
def stepMax (f : Nat → Nat) (best h : Nat) : Nat :=
  if f best < f h then h else best

/-- The fold over hours 0..23 realizing the head of the stable sort. -/
def dominantHour (hs : List Nat) : Nat :=
  (List.range 24).foldl (stepMax (hourCount hs)) 0

/-- Amounts of the record's account group, in processing order. -/
def groupAmounts (all : List Txn) (t : Txn) : List ℚ :=
  ((all.filter (fun x => x.account == t.account)).map (fun x => x.amount))

/-- Hours of the record's account group, in processing order. -/
def groupHours (all : List Txn) (t : Txn) : List Nat :=
  ((all.filter (fun x => x.account == t.account)).map (fun x => hourOf x.timestamp))

/-- Lookup of the five per-feature boolean columns by column name. -/
def colLookup (ra nd ni lc oh : Bool) (c : String) : Bool :=
  if c = "risk_amount" then ra
  else if c = "risk_new_device" then nd
  else if c = "risk_new_ip" then ni
  else if c = "risk_location_change" then lc
  else if c = "risk_off_hour" then oh
  else false

/-- The per-feature `(column, description)` pairs appended to
`active_risks`, in program order. -/
def activeRisksBase (fs : List String) : List (String × String) :=
  (if hasAmount fs then [("risk_amount", "Unusual transaction amount")] else []) ++
  (if hasDevice fs then [("risk_new_device", "New device detected")] else []) ++
  (if hasIp fs then [("risk_new_ip", "New IP address detected")] else []) ++
  (if hasLocation fs then [("risk_location_change", "Transaction location changed")] else []) ++
  (if hasTimestamp fs then [("risk_off_hour", "Transaction at unusual time")] else [])

/-- The velocity check's `(column, description)` pair. -/
def velocityPair : String × String :=
  ("risk_velocity_sim", "Multiple transactions in short time")

/-- Full `active_risks` list: the code appends the velocity pair inside the
`if simulation_mode and has_timestamp` block, unconditionally on data. -/
def activeRisksAll (fs : List String) (sim : Bool) : List (String × String) :=
  activeRisksBase fs ++ (if sim && hasTimestamp fs then [velocityPair] else [])

/-- All six checks in activation order, with their descriptions. -/
def canonicalChecks : List (String × String) :=
  [("risk_amount", "Unusual transaction amount"),
   ("risk_new_device", "New device detected"),
   ("risk_new_ip", "New IP address detected"),
   ("risk_location_change", "Transaction location changed"),
   ("risk_off_hour", "Transaction at unusual time"),
   ("risk_velocity_sim", "Multiple transactions in short time")]

/-- Whether the check with column name `c` is active. -/
def activeFlag (fs : List String) (sim : Bool) (c : String) : Bool :=
  if c = "risk_amount" then hasAmount fs
  else if c = "risk_new_device" then hasDevice fs
  else if c = "risk_new_ip" then hasIp fs
  else if c = "risk_location_change" then hasLocation fs
  else if c = "risk_off_hour" then hasTimestamp fs
  else if c = "risk_velocity_sim" then sim && hasTimestamp fs
  else false

/-- The dynamic anomaly threshold, the literal if-chain of the code. -/
def thresholdFor (n : Nat) : Nat :=
  if n = 0 then 1
  else if n = 1 then 1
  else if n = 2 then 2
  else if n = 3 then 3
  else if n = 4 then 3
  else if n = 5 then 4
  else 5

/-- A record after the per-account checks: the original record plus the
derived columns up to `base_risk_score`. -/
structure Row1 where
  txn : Txn
  hour : Nat
  risk_amount : Bool
  is_new_device : Bool
  risk_new_device : Bool
  is_new_ip : Bool
  risk_new_ip : Bool
  prev_location : Option String
  location_changed : Bool
  risk_location_change : Bool
  dominant_hour : Nat
  off_hour_txn : Bool
  risk_off_hour : Bool
  base_risk_score : Nat
deriving DecidableEq

/-- Per-row computation of every per-account check.  `all` is the whole
batch in processing order (the account group is its filter by account) and
`pre` the rows before this one in processing order (so `duplicated()` and
`shift(1)` look at `pre`'s account-group members).  The inactive branches
write the same constant columns the code writes.  `base_risk_score` is
`df[base_risk_cols].sum(axis=1)`: the number of active per-feature columns
that are true. -/
def buildRow (fs : List String) (all pre : List Txn) (t : Txn) : Row1 :=
  let hour := if hasTimestamp fs then hourOf t.timestamp else 12
  let ra := if hasAmount fs then riskAmount (groupAmounts all t) t.amount else false
  let grpPre := pre.filter (fun x => x.account == t.account)
  let nd := if hasDevice fs then !(grpPre.any (fun x => x.deviceHash == t.deviceHash)) else false
  let ni := if hasIp fs then !(grpPre.any (fun x => x.ipAddress == t.ipAddress)) else false
  let prevLoc : Option String :=
    if hasLocation fs then (grpPre.getLast?).map (fun x => x.location) else none
  let lc := if hasLocation fs then
      (match prevLoc with
       | none => true
       | some l => t.location != l)
    else false
  let dh := if hasTimestamp fs then dominantHour (groupHours all t) else 12
  let oh := if hasTimestamp fs then hour != dh else false
  { txn := t, hour := hour,
    risk_amount := ra,
    is_new_device := nd, risk_new_device := nd,
    is_new_ip := ni, risk_new_ip := ni,
    prev_location := prevLoc, location_changed := lc, risk_location_change := lc,
    dominant_hour := dh, off_hour_txn := oh, risk_off_hour := oh,
    base_risk_score :=
      ((activeRisksBase fs).filter (fun p => colLookup ra nd ni lc oh p.1)).length }

/-- Value of a per-feature boolean column of a checked row, by name. -/
def colVal1 (r : Row1) (c : String) : Bool :=
  colLookup r.risk_amount r.risk_new_device r.risk_new_ip
    r.risk_location_change r.risk_off_hour c

/-- Runs `buildRow` down the batch, accumulating the already-processed rows
in `pre`. -/
def checkRowsGo (fs : List String) (all pre : List Txn) : List Txn → List Row1
  | [] => []
  | t :: rest => buildRow fs all pre t :: checkRowsGo fs all (pre ++ [t]) rest

/-- The batch after all per-account checks, in processing order. -/
def checkedRows (df : DF) (fs : List String) : List Row1 :=
  checkRowsGo fs (sortedTxns df fs) [] (sortedTxns df fs)

/-- The record immediately preceding position `i` that has the same account
as `t`, in the processing order `rs`. -/
def prevSameAccount (rs : List Txn) (i : Nat) (t : Txn) : Option Txn :=
  ((rs.take i).filter (fun x => x.account == t.account)).getLast?

/-- A record after the velocity-simulation columns. -/
structure Row2 where
  base : Row1
  session_id : Option Nat
  sim_timestamp : Option Nat
  txn_count_sim : Option Nat
  risk_velocity_sim : Bool
deriving DecidableEq

/-- List elements paired with their position, starting at `k`. -/
def enumFrom (k : Nat) : List α → List (Nat × α)
  | [] => []
  | x :: xs => (k, x) :: enumFrom (k + 1) xs

/-- Number of synthetic sessions: `min(100, len(df) // session_size)`. -/
def num_sessions (n : Nat) : Nat := min 100 (n / 5)

/-- Real timestamp of the first record of session `s` (position `5 * s`). -/
def baseTime (rs : List Row1) (s : Nat) : Nat :=
  match rs[s * 5]? with
  | some r => r.txn.timestamp
  | none => 0

/-- Session assignment of the record at position `i`: records of the first
`5 * num_sessions` positions form consecutive sessions of 5 and get the
synthetic timestamp `base_time + 10 * (position within session)` seconds;
trailing records keep no session and their own timestamp. -/
def assignOne (rs : List Row1) (ns i : Nat) (r : Row1) : Row2 :=
  if i < 5 * ns then
    { base := r, session_id := some (i / 5),
      sim_timestamp := some (baseTime rs (i / 5) + 10 * (i % 5)),
      txn_count_sim := none, risk_velocity_sim := false }
  else
    { base := r, session_id := none,
      sim_timestamp := some r.txn.timestamp,
      txn_count_sim := none, risk_velocity_sim := false }

/-- The session-assignment loop over the whole batch. -/
def assignSessions (rs : List Row1) : List Row2 :=
  (enumFrom 0 rs).map (fun p => assignOne rs (num_sessions rs.length) p.1 p.2)

/-- Session label string, as the code builds it. -/
def sessionName (s : Nat) : String := "SIM_SESSION_" ++ toString s

/-- Sort key of `sort_values(["session_id", "sim_timestamp"],
na_position="last")`: session-label strings ascending, synthetic timestamp
ascending within, unsessioned rows last (ordered by synthetic timestamp). -/
def simLe (a b : Row2) : Bool :=
  match a.session_id, b.session_id with
  | some s1, some s2 =>
      strLt (sessionName s1) (sessionName s2) ||
        (sessionName s1 == sessionName s2 &&
          decide (a.sim_timestamp.getD 0 ≤ b.sim_timestamp.getD 0))
  | some _, none => true
  | none, some _ => false
  | none, none => decide (a.sim_timestamp.getD 0 ≤ b.sim_timestamp.getD 0)

/-- The `groupby("session_id", dropna=True).cumcount() + 1` column: each
sessioned row gets one plus the number of rows of its session seen so far;
rows with no session get the `NaN` the dropped group produces. -/
def cumcountGo (seen : List (Option Nat)) : List Row2 → List Row2
  | [] => []
  | r :: rest =>
    { r with txn_count_sim :=
        match r.session_id with
        | none => none
        | some s => some (seen.countP (fun x => x == some s) + 1) } ::
      cumcountGo (seen ++ [r.session_id]) rest

/-- The velocity column `txn_count_sim >= 3` (false on the `NaN` rows). -/
def velocityOf (r : Row2) : Row2 :=
  { r with risk_velocity_sim :=
      match r.txn_count_sim with
      | some c => decide (3 ≤ c)
      | none => false }

/-- The whole velocity-simulation pass (only reached when simulation mode is
on and the timestamp feature is present). -/
def simStage (checked : List Row1) : List Row2 :=
  (cumcountGo [] (sortBy simLe (assignSessions checked))).map velocityOf

/-- The velocity columns outside the simulation branch: the defaults the
code writes before the `if` (count 1, no session, no firing). -/
def plainStage (hasTs : Bool) (checked : List Row1) : List Row2 :=
  checked.map (fun r =>
    { base := r, session_id := none,
      sim_timestamp := if hasTs then some r.txn.timestamp else none,
      txn_count_sim := some 1, risk_velocity_sim := false })

/-- The batch after the velocity columns, in output order. -/
def rowsStage2 (df : DF) (sim : Bool) (af : Option (List String)) : List Row2 :=
  if sim && hasTimestamp (featureList df af) then
    simStage (checkedRows df (featureList df af))
  else plainStage (hasTimestamp (featureList df af)) (checkedRows df (featureList df af))

/-- Value of any boolean risk column of a velocity-stage row, by name. -/
def colValRow2 (r : Row2) (c : String) : Bool :=
  if c = "risk_velocity_sim" then r.risk_velocity_sim else colVal1 r.base c

/-- A fully scored record. -/
structure Row3 where
  r2 : Row2
  final_risk_score : Nat
  final_reasons : List String
  final_is_anomalous : Bool
deriving DecidableEq

/-- Value of any boolean risk column of a scored record, by name. -/
def colValRow3 (r : Row3) (c : String) : Bool := colValRow2 r.r2 c

/-- Final columns: `final_risk_score = base_risk_score + int(velocity)`,
`final_reasons` the descriptions of the active checks whose column is true
(iterating the active list in activation order), and the verdict
`final_risk_score >= threshold`. -/
def finalizeRow (active : List (String × String)) (thr : Nat) (r : Row2) : Row3 :=
  let score := r.base.base_risk_score + (if r.risk_velocity_sim then 1 else 0)
  { r2 := r,
    final_risk_score := score,
    final_reasons := ((active.filter (fun p => colValRow2 r p.1)).map (fun p => p.2)),
    final_is_anomalous := decide (thr ≤ score) }

/-- The engine result: scored rows plus the metadata stored in `df.attrs`. -/
structure EngineOutput where
  rows : List Row3
  active_risks : List (String × String)
  threshold : Nat
  available_features : List String
deriving DecidableEq

/-- The full `process_transactions` transform. -/
def process_transactions (df : DF) (simulation_mode : Bool)
    (available_features : Option (List String)) : EngineOutput :=
  let fs := featureList df available_features
  let active := activeRisksAll fs simulation_mode
  let thr := thresholdFor active.length
  { rows := (rowsStage2 df simulation_mode available_features).map (finalizeRow active thr),
    active_risks := active,
    threshold := thr,
    available_features := fs }

/-- Shorthand constructor for concrete records. -/
def mkTxn (id : Nat) (acct : String) (ts : Nat) (amt : ℚ) (dev ip loc : String) : Txn :=
  { txnId := id, account := acct, timestamp := ts, amount := amt,
    deviceHash := dev, ipAddress := ip, location := loc }

/-- One-record batch whose only optional feature is the timestamp. -/
def dfT : DF :=
  { cols := ["transaction_id", "sender_account", "timestamp"],
    rows := [mkTxn 1 "A" 0 0 "" "" ""] }

/-- One-record batch whose only optional feature is the location. -/
def dfLoc : DF :=
  { cols := ["transaction_id", "sender_account", "location"],
    rows := [mkTxn 1 "A" 0 0 "" "" "Paris"] }

/-- Batch of 17 temporally-ordered records of one account, timestamps 100 s
apart, with the timestamp feature only. -/
def df17 : DF :=
  { cols := ["transaction_id", "sender_account", "timestamp"],
    rows := (List.range 17).map (fun i => mkTxn (i + 1) "A" (100 * i) 0 "" "" "") }

/-- Batch with the amount feature only: account A has amounts
[100, 100, 100], account B has [10, 10, 1000]. -/
def dfA : DF :=
  { cols := ["transaction_id", "sender_account", "amount"],
    rows := [mkTxn 1 "A" 0 100 "" "" "", mkTxn 2 "A" 0 100 "" "" "",
             mkTxn 3 "A" 0 100 "" "" "", mkTxn 4 "B" 0 10 "" "" "",
             mkTxn 5 "B" 0 10 "" "" "", mkTxn 6 "B" 0 1000 "" "" ""] }

/-- Batch with the timestamp feature whose single account transacts at hours
[9, 9, 9, 14]. -/
def dfH : DF :=
  { cols := ["transaction_id", "sender_account", "timestamp"],
    rows := [mkTxn 1 "A" 32400 0 "" "" "", mkTxn 2 "A" 32401 0 "" "" "",
             mkTxn 3 "A" 32402 0 "" "" "", mkTxn 4 "A" 50400 0 "" "" ""] }

/-- Batch exposing no optional feature at all. -/
def dfMin : DF :=
  { cols := ["transaction_id", "sender_account"],
    rows := [mkTxn 1 "A" 0 0 "" "" ""] }


/-! ### Structural lemmas about the embedding -/

theorem insertSorted_perm (le : α → α → Bool) (x : α) (l : List α) :
    (insertSorted le x l).Perm (x :: l) := by
  induction l with
  | nil => exact List.Perm.refl _
  | cons y ys ih =>
    simp only [insertSorted]
    by_cases h : le y x = true
    · simp only [h, if_true]
      exact (ih.cons y).trans (List.Perm.swap x y ys)
    · simp only [h, if_false]
      exact List.Perm.refl _

theorem sortByGo_perm (le : α → α → Bool) :
    ∀ (l acc : List α), (l.foldl (fun a x => insertSorted le x a) acc).Perm (acc ++ l)
  | [], acc => by simp
  | x :: xs, acc => by
    simp only [List.foldl_cons]
    refine (sortByGo_perm le xs (insertSorted le x acc)).trans ?_
    refine (((insertSorted_perm le x acc).append_right xs).trans ?_)
    exact List.perm_middle.symm

theorem sortBy_perm (le : α → α → Bool) (l : List α) : (sortBy le l).Perm l := by
  simpa using sortByGo_perm le l []

theorem sortedTxns_perm (df : DF) (fs : List String) :
    (sortedTxns df fs).Perm df.rows := by
  unfold sortedTxns
  split
  · exact sortBy_perm txnLe df.rows
  · exact List.Perm.refl _

theorem buildRow_txn (fs : List String) (all pre : List Txn) (t : Txn) :
    (buildRow fs all pre t).txn = t := rfl

theorem checkRowsGo_map_txn (fs : List String) (all : List Txn) :
    ∀ (l pre : List Txn), (checkRowsGo fs all pre l).map Row1.txn = l
  | [], _ => rfl
  | t :: rest, pre => by
    simp only [checkRowsGo, List.map_cons, buildRow_txn,
      checkRowsGo_map_txn fs all rest (pre ++ [t])]

theorem checkedRows_map_txn (df : DF) (fs : List String) :
    (checkedRows df fs).map Row1.txn = sortedTxns df fs :=
  checkRowsGo_map_txn fs (sortedTxns df fs) (sortedTxns df fs) []

theorem checkRowsGo_getElem? (fs : List String) (all : List Txn) :
    ∀ (l pre : List Txn) (i : Nat),
      (checkRowsGo fs all pre l)[i]? =
        (l[i]?).map (fun t => buildRow fs all (pre ++ l.take i) t)
  | [], pre, i => by simp [checkRowsGo]
  | t :: rest, pre, 0 => by simp [checkRowsGo]
  | t :: rest, pre, i + 1 => by
    simp only [checkRowsGo, List.getElem?_cons_succ, List.take_succ_cons]
    rw [checkRowsGo_getElem? fs all rest (pre ++ [t]) i]
    simp [List.append_assoc]

theorem checkedRows_getElem? (df : DF) (fs : List String) (i : Nat) :
    (checkedRows df fs)[i]? =
      ((sortedTxns df fs)[i]?).map
        (fun t => buildRow fs (sortedTxns df fs) ((sortedTxns df fs).take i) t) := by
  unfold checkedRows
  rw [checkRowsGo_getElem?]
  simp

theorem mem_checkRowsGo (fs : List String) (all : List Txn) :
    ∀ (l pre : List Txn) (r : Row1), r ∈ checkRowsGo fs all pre l →
      ∃ p t, r = buildRow fs all p t
  | [], _, r, h => absurd h (List.not_mem_nil r)
  | t :: rest, pre, r, h => by
    rcases List.mem_cons.mp h with h1 | h2
    · exact ⟨pre, t, h1⟩
    · exact mem_checkRowsGo fs all rest (pre ++ [t]) r h2

theorem mem_checkedRows (df : DF) (fs : List String) (r : Row1)
    (h : r ∈ checkedRows df fs) :
    ∃ p t, r = buildRow fs (sortedTxns df fs) p t :=
  mem_checkRowsGo fs (sortedTxns df fs) (sortedTxns df fs) [] r h

theorem enumFrom_getElem? : ∀ (l : List α) (k i : Nat),
    (enumFrom k l)[i]? = (l[i]?).map (fun x => (k + i, x))
  | [], _, _ => by simp [enumFrom]
  | x :: xs, k, 0 => by simp [enumFrom]
  | x :: xs, k, i + 1 => by
    simp only [enumFrom, List.getElem?_cons_succ]
    rw [enumFrom_getElem? xs (k + 1) i]
    have : k + 1 + i = k + (i + 1) := by omega
    rw [this]

theorem enumFrom_map_snd : ∀ (l : List α) (k : Nat),
    (enumFrom k l).map Prod.snd = l
  | [], _ => rfl
  | x :: xs, k => by simp [enumFrom, enumFrom_map_snd xs (k + 1)]

theorem assignOne_base (rs : List Row1) (ns i : Nat) (r : Row1) :
    (assignOne rs ns i r).base = r := by
  unfold assignOne; split <;> rfl

theorem assignSessions_map_base (rs : List Row1) :
    (assignSessions rs).map Row2.base = rs := by
  unfold assignSessions
  rw [List.map_map]
  have : (Row2.base ∘ fun p : Nat × Row1 =>
      assignOne rs (num_sessions rs.length) p.1 p.2) = Prod.snd := by
    funext p
    simp [Function.comp, assignOne_base]
  rw [this, enumFrom_map_snd]

theorem assignSessions_getElem? (rs : List Row1) (i : Nat) :
    (assignSessions rs)[i]? =
      (rs[i]?).map (fun r => assignOne rs (num_sessions rs.length) i r) := by
  unfold assignSessions
  rw [List.getElem?_map, enumFrom_getElem?]
  cases rs[i]? <;> simp [Nat.zero_add]

theorem cumcountGo_map_base : ∀ (l : List Row2) (seen : List (Option Nat)),
    (cumcountGo seen l).map Row2.base = l.map Row2.base
  | [], _ => rfl
  | r :: rest, seen => by
    simp only [cumcountGo, List.map_cons]
    rw [cumcountGo_map_base rest (seen ++ [r.session_id])]

theorem velocityOf_base (r : Row2) : (velocityOf r).base = r.base := rfl

theorem simStage_map_base_perm (checked : List Row1) :
    ((simStage checked).map Row2.base).Perm checked := by
  unfold simStage
  rw [List.map_map]
  have h1 : (Row2.base ∘ velocityOf) = Row2.base := by
    funext r; simp [Function.comp, velocityOf_base]
  rw [h1, cumcountGo_map_base]
  refine ((sortBy_perm simLe (assignSessions checked)).map Row2.base).trans ?_
  rw [assignSessions_map_base]

theorem plainStage_map_base (hasTs : Bool) (checked : List Row1) :
    (plainStage hasTs checked).map Row2.base = checked := by
  unfold plainStage
  rw [List.map_map]
  exact List.map_id checked

theorem rowsStage2_map_base_perm (df : DF) (sim : Bool) (af : Option (List String)) :
    ((rowsStage2 df sim af).map Row2.base).Perm (checkedRows df (featureList df af)) := by
  unfold rowsStage2
  split
  · exact simStage_map_base_perm _
  · rw [plainStage_map_base]

theorem process_rows_eq (df : DF) (sim : Bool) (af : Option (List String)) :
    (process_transactions df sim af).rows =
      (rowsStage2 df sim af).map
        (finalizeRow (activeRisksAll (featureList df af) sim)
          (thresholdFor (activeRisksAll (featureList df af) sim).length)) := rfl

theorem process_active_eq (df : DF) (sim : Bool) (af : Option (List String)) :
    (process_transactions df sim af).active_risks =
      activeRisksAll (featureList df af) sim := rfl

theorem process_threshold_eq (df : DF) (sim : Bool) (af : Option (List String)) :
    (process_transactions df sim af).threshold =
      thresholdFor (activeRisksAll (featureList df af) sim).length := rfl

theorem buildRow_base_score (fs : List String) (all pre : List Txn) (t : Txn) :
    (buildRow fs all pre t).base_risk_score =
      ((activeRisksBase fs).filter
        (fun p => colVal1 (buildRow fs all pre t) p.1)).length := rfl

theorem checkedRows_base_score (df : DF) (fs : List String) :
    ∀ r1 ∈ checkedRows df fs,
      r1.base_risk_score =
        ((activeRisksBase fs).filter (fun p => colVal1 r1 p.1)).length := by
  intro r1 h
  rcases mem_checkedRows df fs r1 h with ⟨p, t, rfl⟩
  exact buildRow_base_score fs _ p t

theorem mem_ite_singleton {c : Prop} [Decidable c] {x y : α}
    (h : y ∈ if c then [x] else []) : y = x := by
  rcases Decidable.em c with hc | hc
  · rw [if_pos hc] at h
    simpa using h
  · rw [if_neg hc] at h
    simp at h

theorem activeRisksBase_names (fs : List String) :
    ∀ p ∈ activeRisksBase fs,
      p.1 = "risk_amount" ∨ p.1 = "risk_new_device" ∨ p.1 = "risk_new_ip" ∨
        p.1 = "risk_location_change" ∨ p.1 = "risk_off_hour" := by
  intro p hp
  simp only [activeRisksBase, List.mem_append] at hp
  rcases hp with ((((h | h) | h) | h) | h)
  · exact Or.inl (by rw [mem_ite_singleton h])
  · exact Or.inr (Or.inl (by rw [mem_ite_singleton h]))
  · exact Or.inr (Or.inr (Or.inl (by rw [mem_ite_singleton h])))
  · exact Or.inr (Or.inr (Or.inr (Or.inl (by rw [mem_ite_singleton h]))))
  · exact Or.inr (Or.inr (Or.inr (Or.inr (by rw [mem_ite_singleton h]))))

theorem activeRisksBase_ne_velocity (fs : List String) :
    ∀ p ∈ activeRisksBase fs, ¬ p.1 = "risk_velocity_sim" := by
  intro p hp
  rcases activeRisksBase_names fs p hp with h | h | h | h | h <;> rw [h] <;> decide

theorem activeRisksAll_filter_canonical (fs : List String) (sim : Bool) :
    activeRisksAll fs sim = canonicalChecks.filter (fun c => activeFlag fs sim c.1) := by
  cases h1 : hasAmount fs <;> cases h2 : hasDevice fs <;> cases h3 : hasIp fs <;>
    cases h4 : hasLocation fs <;> cases h5 : hasTimestamp fs <;> cases sim <;>
    simp [activeRisksAll, activeRisksBase, canonicalChecks, activeFlag,
      velocityPair, h1, h2, h3, h4, h5]

theorem plainStage_fields (hasTs : Bool) (checked : List Row1) :
    ∀ r ∈ plainStage hasTs checked,
      r.risk_velocity_sim = false ∧ r.session_id = none ∧ r.txn_count_sim = some 1 := by
  intro r hr
  rcases List.mem_map.mp hr with ⟨r1, _, rfl⟩
  exact ⟨rfl, rfl, rfl⟩

theorem rowsStage2_velocity_false (df : DF) (sim : Bool) (af : Option (List String))
    (h : (sim && hasTimestamp (featureList df af)) = false) :
    ∀ r2 ∈ rowsStage2 df sim af, r2.risk_velocity_sim = false := by
  intro r2 hr
  unfold rowsStage2 at hr
  rw [h] at hr
  simp only [Bool.false_eq_true, if_false] at hr
  exact (plainStage_fields _ _ r2 hr).1

theorem mem_rowsStage2_base (df : DF) (sim : Bool) (af : Option (List String))
    (r2 : Row2) (h : r2 ∈ rowsStage2 df sim af) :
    r2.base ∈ checkedRows df (featureList df af) :=
  (rowsStage2_map_base_perm df sim af).mem_iff.mp (List.mem_map_of_mem Row2.base h)

theorem mem_process_rows (df : DF) (sim : Bool) (af : Option (List String))
    (r : Row3) (h : r ∈ (process_transactions df sim af).rows) :
    ∃ r2 ∈ rowsStage2 df sim af,
      r = finalizeRow (activeRisksAll (featureList df af) sim)
        (thresholdFor (activeRisksAll (featureList df af) sim).length) r2 := by
  rw [process_rows_eq] at h
  rcases List.mem_map.mp h with ⟨r2, h2, rfl⟩
  exact ⟨r2, h2, rfl⟩

theorem colValRow2_base (r : Row2) (c : String) (h : ¬ c = "risk_velocity_sim") :
    colValRow2 r c = colVal1 r.base c := by
  unfold colValRow2
  rw [if_neg h]

theorem foldl_stepMax_spec (f : Nat → Nat) :
    ∀ (todo : List Nat) (b : Nat), todo.Pairwise (· < ·) → (∀ x ∈ todo, b < x) →
      (f b ≤ f (todo.foldl (stepMax f) b)) ∧
      (∀ h ∈ todo, f h ≤ f (todo.foldl (stepMax f) b)) ∧
      (todo.foldl (stepMax f) b = b ∨
        (todo.foldl (stepMax f) b ∈ todo ∧ f b < f (todo.foldl (stepMax f) b))) ∧
      (∀ h ∈ todo, h < todo.foldl (stepMax f) b → f h < f (todo.foldl (stepMax f) b))
  | [], b, _, _ => by simp
  | h :: rest, b, hpw, hb => by
    have hpw' : rest.Pairwise (· < ·) := hpw.of_cons
    have hhead : ∀ x ∈ rest, h < x := (List.pairwise_cons.mp hpw).1
    have hbh : b < h := hb h (List.mem_cons_self h rest)
    simp only [List.foldl_cons]
    by_cases hc : f b < f h
    · have hstep : stepMax f b h = h := by simp [stepMax, hc]
      rw [hstep]
      obtain ⟨ih1, ih2, ih3, ih4⟩ := foldl_stepMax_spec f rest h hpw' hhead
      refine ⟨le_trans (le_of_lt hc) ih1, ?_, ?_, ?_⟩
      · intro x hx
        rcases List.mem_cons.mp hx with rfl | hxr
        · exact ih1
        · exact ih2 x hxr
      · rcases ih3 with h3 | ⟨h3a, h3b⟩
        · exact Or.inr ⟨by rw [h3]; exact List.mem_cons_self h rest, by rw [h3]; exact hc⟩
        · exact Or.inr ⟨List.mem_cons_of_mem h h3a, lt_trans hc h3b⟩
      · intro x hx hlt
        rcases List.mem_cons.mp hx with rfl | hxr
        · rcases ih3 with h3 | ⟨_, h3b⟩
          · rw [h3] at hlt
            exact absurd hlt (lt_irrefl x)
          · exact h3b
        · exact ih4 x hxr hlt
    · have hstep : stepMax f b h = b := by simp [stepMax, hc]
      rw [hstep]
      have hfh : f h ≤ f b := le_of_not_lt hc
      obtain ⟨ih1, ih2, ih3, ih4⟩ :=
        foldl_stepMax_spec f rest b hpw' (fun x hx => lt_trans hbh (hhead x hx))
      refine ⟨ih1, ?_, ?_, ?_⟩
      · intro x hx
        rcases List.mem_cons.mp hx with rfl | hxr
        · exact le_trans hfh ih1
        · exact ih2 x hxr
      · rcases ih3 with h3 | ⟨h3a, h3b⟩
        · exact Or.inl h3
        · exact Or.inr ⟨List.mem_cons_of_mem h h3a, h3b⟩
      · intro x hx hlt
        rcases List.mem_cons.mp hx with rfl | hxr
        · rcases ih3 with h3 | ⟨_, h3b⟩
          · rw [h3] at hlt
            exact absurd hlt (not_lt.mpr (le_of_lt hbh))
          · exact lt_of_le_of_lt hfh h3b
        · exact ih4 x hxr hlt

theorem dominantHour_spec (hs : List Nat) :
    dominantHour hs < 24 ∧
      (∀ h, h < 24 → hourCount hs h ≤ hourCount hs (dominantHour hs)) ∧
      (∀ h, h < dominantHour hs → hourCount hs h < hourCount hs (dominantHour hs)) := by
  have hrange : List.range 24 = 0 :: List.range' 1 23 := by decide
  have hstep0 : stepMax (hourCount hs) 0 0 = 0 := by simp [stepMax]
  have hd : dominantHour hs = (List.range' 1 23).foldl (stepMax (hourCount hs)) 0 := by
    rw [dominantHour, hrange, List.foldl_cons, hstep0]
  obtain ⟨s1, s2, s3, s4⟩ := foldl_stepMax_spec (hourCount hs) (List.range' 1 23) 0
    (by decide) (by decide)
  rw [← hd] at s1 s2 s3 s4
  refine ⟨?_, ?_, ?_⟩
  · rcases s3 with h3 | ⟨h3a, _⟩
    · rw [h3]
      decide
    · exact (List.mem_range'_1.mp h3a).2
  · intro h hh
    rcases Nat.eq_zero_or_pos h with rfl | hpos
    · exact s1
    · exact s2 h (List.mem_range'_1.mpr ⟨hpos, by omega⟩)
  · intro h hh
    rcases Nat.eq_zero_or_pos h with rfl | hpos
    · rcases s3 with h3 | ⟨_, h3b⟩
      · rw [h3] at hh
        exact absurd hh (lt_irrefl 0)
      · exact h3b
    · have hlt24 : dominantHour hs < 24 := by
        rcases s3 with h3 | ⟨h3a, _⟩
        · rw [h3]; decide
        · exact (List.mem_range'_1.mp h3a).2
      exact s4 h (List.mem_range'_1.mpr ⟨hpos, by omega⟩) hh

theorem buildRow_location (fs : List String) (all pre : List Txn) (t : Txn)
    (hl : hasLocation fs = true) :
    (buildRow fs all pre t).risk_location_change =
      match (pre.filter (fun x => x.account == t.account)).getLast? with
      | none => true
      | some p => t.location != p.location := by
  simp only [buildRow, hl, if_true]
  cases hgl : (pre.filter (fun x => x.account == t.account)).getLast? <;> simp [hgl]

/-! ### Claim theorems -/

/-- C10: calling the engine with `available_features` omitted produces the
same output as declaring the batch's full column list as the available
feature set, for every batch and simulation flag. -/
theorem C10_default_features (df : DF) (sim : Bool) :
    process_transactions df sim none = process_transactions df sim (some df.cols) := rfl

/-- C6: the output preserves every original field of every record: mapping
every scored row back to its embedded original record yields exactly the
input batch (as a permutation, since the engine re-sorts rows); the engine
only appends derived fields and rewrites no input column. -/
theorem C6_frame_preservation (df : DF) (sim : Bool) (af : Option (List String)) :
    ((process_transactions df sim af).rows.map (fun r => r.r2.base.txn)).Perm df.rows := by
  rw [process_rows_eq, List.map_map]
  have h1 : ((rowsStage2 df sim af).map
      ((fun r : Row3 => r.r2.base.txn) ∘
        finalizeRow (activeRisksAll (featureList df af) sim)
          (thresholdFor (activeRisksAll (featureList df af) sim).length))) =
      ((rowsStage2 df sim af).map Row2.base).map Row1.txn := by
    rw [List.map_map]
    rfl
  rw [h1]
  have h2 := (rowsStage2_map_base_perm df sim af).map Row1.txn
  rw [checkedRows_map_txn] at h2
  exact h2.trans (sortedTxns_perm df _)

/-- C2: the threshold is a function of the active-check count only, given by
the fixed table 0→1, 1→1, 2→2, 3→3, 4→3, 5→4, 6+→5; and with zero active
checks the threshold is 1 while every record scores 0, so nothing is ever
flagged anomalous. -/
theorem C2_threshold_table :
    (∀ (df : DF) (sim : Bool) (af : Option (List String)),
        (process_transactions df sim af).threshold =
          thresholdFor (process_transactions df sim af).active_risks.length) ∧
      thresholdFor 0 = 1 ∧ thresholdFor 1 = 1 ∧ thresholdFor 2 = 2 ∧
      thresholdFor 3 = 3 ∧ thresholdFor 4 = 3 ∧ thresholdFor 5 = 4 ∧
      (∀ n, 6 ≤ n → thresholdFor n = 5) ∧
      (∀ (df : DF) (sim : Bool) (af : Option (List String)),
        (process_transactions df sim af).active_risks = [] →
          (process_transactions df sim af).threshold = 1 ∧
            (process_transactions df sim af).rows.map
                (fun r => (r.final_risk_score, r.final_is_anomalous)) =
              (process_transactions df sim af).rows.map (fun _ => (0, false))) := by
  refine ⟨fun df sim af => rfl, rfl, rfl, rfl, rfl, rfl, rfl, ?_, ?_⟩
  · intro n h
    unfold thresholdFor
    repeat rw [if_neg (by omega)]
  · intro df sim af h
    have hact : activeRisksAll (featureList df af) sim = [] := by
      rw [← process_active_eq df sim af]
      exact h
    obtain ⟨hbase, hvel⟩ := List.append_eq_nil.mp hact
    have hst : (sim && hasTimestamp (featureList df af)) = false := by
      rcases Bool.eq_false_or_eq_true (sim && hasTimestamp (featureList df af)) with hb | hb
      · rw [hb] at hvel
        simp at hvel
      · exact hb
    constructor
    · rw [process_threshold_eq, hact]
      rfl
    · apply List.map_congr_left
      intro r hr
      obtain ⟨r2, hr2, rfl⟩ := mem_process_rows df sim af r hr
      have hb1 : r2.base.base_risk_score = 0 := by
        rw [checkedRows_base_score df _ r2.base (mem_rowsStage2_base df sim af r2 hr2), hbase]
        rfl
      have hv1 : r2.risk_velocity_sim = false := rowsStage2_velocity_false df sim af hst r2 hr2
      simp [finalizeRow, hb1, hv1, hact, thresholdFor]

/-- C2 witness: the threshold for 7 active checks is 5, and the featureless
one-record batch gets threshold 1 with score 0 and no anomaly flag. -/
theorem C2_threshold_table_witness :
    thresholdFor 7 = 5 ∧
      ((process_transactions dfMin true none).threshold = 1 ∧
        (process_transactions dfMin true none).rows.map
            (fun r => (r.final_risk_score, r.final_is_anomalous)) =
          (process_transactions dfMin true none).rows.map (fun _ => (0, false))) :=
  ⟨C2_threshold_table.2.2.2.2.2.2.2.1 7 (by decide),
    C2_threshold_table.2.2.2.2.2.2.2.2 dfMin true none (by decide)⟩

/-- C3 counterexample: in a one-record batch with a timestamp column and
simulation mode on, the velocity check is registered as active although it
fires for no record in the batch, refuting "registered exactly when it
fired for at least one record". -/
theorem C3_cex :
    ("risk_velocity_sim", "Multiple transactions in short time") ∈
        (process_transactions dfT true none).active_risks ∧
      (process_transactions dfT true none).rows.map
          (fun r => r.r2.risk_velocity_sim) = [false] := by
  constructor
  · decide
  · decide

/-- C3 amended: the velocity check is registered as active (with
description "Multiple transactions in short time") exactly when simulation
mode is enabled and the timestamp feature is present — independently of
whether it fired for any record of the batch. -/
theorem C3_velocity_registration (df : DF) (sim : Bool) (af : Option (List String)) :
    (("risk_velocity_sim", "Multiple transactions in short time") ∈
        (process_transactions df sim af).active_risks) ↔
      (sim = true ∧ hasTimestamp (featureList df af) = true) := by
  rw [process_active_eq]
  unfold activeRisksAll
  rw [List.mem_append]
  constructor
  · rintro (h | h)
    · exact absurd rfl (activeRisksBase_ne_velocity _ _ h)
    · rcases Bool.eq_false_or_eq_true (sim && hasTimestamp (featureList df af)) with hb | hb
      · exact Bool.and_eq_true_iff.mp hb
      · rw [hb] at h
        simp at h
  · rintro ⟨h1, h2⟩
    right
    rw [h1, h2]
    simp [velocityPair]

/-- C4 counterexample: in a batch with the location feature whose single
record is the first of its account, the location-change check fires (the
missing predecessor compares unequal), refuting "the first record of each
account never fires the location-change check". -/
theorem C4_cex :
    (process_transactions dfLoc false none).rows.map
        (fun r => r.r2.base.risk_location_change) = [true] := by
  decide

/-- C4 amended: with the location feature present, the location-change
check fires on the record at position `i` of the processing order (sorted
by account and temporal stamp when present) iff its location differs from
the immediately preceding record of the same account — and a record with NO
same-account predecessor (the first record of its account) ALWAYS fires,
its missing predecessor comparing unequal to every location. -/
theorem C4_location_change :
    (∀ (df : DF) (af : Option (List String)),
        hasLocation (featureList df af) = true → ∀ i : Nat,
          ((checkedRows df (featureList df af))[i]?).map Row1.risk_location_change =
            ((sortedTxns df (featureList df af))[i]?).map (fun t =>
              match prevSameAccount (sortedTxns df (featureList df af)) i t with
              | none => true
              | some p => t.location != p.location)) ∧
      (∀ (rs : List Txn) (i : Nat) (t : Txn),
        prevSameAccount rs i t = none ↔
          ∀ j, j < i → ∀ u, rs[j]? = some u → ¬ u.account = t.account) := by
  constructor
  · intro df af hl i
    rw [checkedRows_getElem?]
    cases h : (sortedTxns df (featureList df af))[i]? with
    | none => rfl
    | some t =>
      simp only [Option.map_some']
      rw [buildRow_location _ _ _ t hl]
      rfl
  · intro rs i t
    unfold prevSameAccount
    rw [List.getLast?_eq_none_iff, List.filter_eq_nil_iff]
    constructor
    · intro h j hj u hu
      have htk : (rs.take i)[j]? = some u := by
        rw [List.getElem?_take]
        simp [hj, hu]
      have := h u (List.getElem?_mem htk)
      simpa using this
    · intro h a ha
      obtain ⟨j, hj⟩ := List.mem_iff_getElem?.mp ha
      have hjlt : j < i := by
        obtain ⟨hlt, _⟩ := List.getElem?_eq_some.mp hj
        simp [List.length_take] at hlt
        omega
      have hrs : rs[j]? = some a := by
        rw [List.getElem?_take] at hj
        simp [hjlt] at hj
        exact hj
      have := h j hjlt a hrs
      simpa using this

/-- C4 witness: the amended location-change law applied at the concrete
one-record location batch at position 0. -/
theorem C4_location_change_witness :
    ((checkedRows dfLoc (featureList dfLoc none))[0]?).map Row1.risk_location_change =
      ((sortedTxns dfLoc (featureList dfLoc none))[0]?).map (fun t =>
        match prevSameAccount (sortedTxns dfLoc (featureList dfLoc none)) 0 t with
        | none => true
        | some p => t.location != p.location) :=
  C4_location_change.1 dfLoc none (by decide) 0

theorem colValRow3_finalize (active : List (String × String)) (thr : Nat)
    (r2 : Row2) (c : String) :
    colValRow3 (finalizeRow active thr r2) c = colValRow2 r2 c := rfl

theorem finalize_reasons_eq (active : List (String × String)) (thr : Nat) (r2 : Row2) :
    (finalizeRow active thr r2).final_reasons =
      (active.filter (fun p => colValRow2 r2 p.1)).map (fun p => p.2) := rfl

theorem finalize_score_velocity_tail (r2 : Row2) (cond : Bool) :
    ((if cond then [velocityPair] else []).filter
        (fun p => colValRow2 r2 p.1)).length =
      if cond then (if r2.risk_velocity_sim then 1 else 0) else 0 := by
  cases cond <;> cases hv : r2.risk_velocity_sim <;>
    simp [velocityPair, colValRow2, hv]

/-- C1: for every batch, every record's final risk score equals the number
of active checks (the per-feature checks plus the velocity check when it is
registered) whose boolean column is true for that record, and the record is
marked anomalous iff its final risk score reaches the selected threshold. -/
theorem C1_score_and_verdict (df : DF) (sim : Bool) (af : Option (List String)) :
    (process_transactions df sim af).rows.map
        (fun r => (r.final_risk_score, r.final_is_anomalous)) =
      (process_transactions df sim af).rows.map
        (fun r =>
          (((process_transactions df sim af).active_risks.filter
              (fun p => colValRow3 r p.1)).length,
            decide ((process_transactions df sim af).threshold ≤
              ((process_transactions df sim af).active_risks.filter
                (fun p => colValRow3 r p.1)).length))) := by
  apply List.map_congr_left
  intro r hr
  obtain ⟨r2, hr2, rfl⟩ := mem_process_rows df sim af r hr
  have hbase := checkedRows_base_score df (featureList df af) r2.base
    (mem_rowsStage2_base df sim af r2 hr2)
  have hfilter :
      ((activeRisksAll (featureList df af) sim).filter
        (fun p => colValRow2 r2 p.1)).length =
      r2.base.base_risk_score + (if r2.risk_velocity_sim then 1 else 0) := by
    unfold activeRisksAll
    rw [List.filter_append, List.length_append]
    congr 1
    · rw [hbase]
      congr 1
      apply List.filter_congr
      intro p hp
      exact colValRow2_base r2 p.1 (activeRisksBase_ne_velocity _ p hp)
    · rw [finalize_score_velocity_tail]
      rcases Bool.eq_false_or_eq_true (sim && hasTimestamp (featureList df af)) with hb | hb
      · rw [hb]
        simp
      · rw [hb]
        simp [rowsStage2_velocity_false df sim af hb r2 hr2]
  simp only [colValRow3_finalize, process_active_eq, process_threshold_eq]
  simp only [hfilter]
  rfl

/-- C9: for every record (whatever its verdict), the final reasons list is
exactly the ordered list of descriptions of the active checks whose boolean
column is true for that record, in activation order (amount, new-device,
new-network, location-change, off-hour, velocity), with no entry for any
inactive check. -/
theorem C9_reasons (df : DF) (sim : Bool) (af : Option (List String)) :
    (process_transactions df sim af).rows.map (fun r => r.final_reasons) =
      (process_transactions df sim af).rows.map (fun r =>
        (canonicalChecks.filter (fun c =>
            decide (c ∈ (process_transactions df sim af).active_risks) &&
              colValRow3 r c.1)).map (fun c => c.2)) := by
  apply List.map_congr_left
  intro r hr
  obtain ⟨r2, hr2, rfl⟩ := mem_process_rows df sim af r hr
  simp only [colValRow3_finalize, process_active_eq, finalize_reasons_eq]
  simp only [activeRisksAll_filter_canonical]
  rw [List.filter_filter]
  refine congrArg (fun l : List (String × String) => l.map (fun p => p.2)) ?_
  apply List.filter_congr
  intro c hc
  have hmem : (c ∈ canonicalChecks.filter
      (fun c => activeFlag (featureList df af) sim c.1)) ↔
      activeFlag (featureList df af) sim c.1 = true := by
    rw [List.mem_filter]
    simp [hc]
  rw [Bool.and_comm]
  congr 1
  simp [hmem]

theorem simStage_velocity (checked : List Row1) :
    ∀ r2 ∈ simStage checked,
      r2.risk_velocity_sim =
        match r2.txn_count_sim with
        | some c => decide (3 ≤ c)
        | none => false := by
  intro r2 hr
  rcases List.mem_map.mp hr with ⟨r', _, rfl⟩
  rfl

theorem five_num_sessions_le (n : Nat) : 5 * num_sessions n ≤ n := by
  unfold num_sessions
  have h1 : min 100 (n / 5) ≤ n / 5 := Nat.min_le_right _ _
  have h2 : n / 5 * 5 ≤ n := Nat.div_mul_le_self _ _
  omega

/-- C5: with simulation mode on and timestamps present, the sorted batch is
sliced in row order into consecutive sessions of 5, min(100, n / 5) many:
position `i < 5 * num_sessions` gets session `i / 5` and synthetic
timestamp equal to the slice head's real timestamp plus `10 * (i % 5)`
seconds; trailing positions get no session; session `s` exists iff
`s < num_sessions`; the velocity check fires on the engine output exactly
on records whose 1-based within-session sequence number is at least 3; and
the concrete 17-record batch yields 3 full sessions of 5 with synthetic
offsets 0/10/20/30/40 from each slice head, 2 unsessioned trailing records,
and velocity firing exactly for the 3rd, 4th and 5th record of each
session. -/
theorem C5_session_simulation :
    (∀ (df : DF) (af : Option (List String)) (i : Nat),
        i < 5 * num_sessions (checkedRows df (featureList df af)).length →
          ((assignSessions (checkedRows df (featureList df af)))[i]?).map Row2.session_id =
              some (some (i / 5)) ∧
            ((assignSessions (checkedRows df (featureList df af)))[i]?).map Row2.sim_timestamp =
              ((checkedRows df (featureList df af))[i / 5 * 5]?).map
                (fun r0 => some (r0.txn.timestamp + 10 * (i % 5)))) ∧
    (∀ (df : DF) (af : Option (List String)) (i : Nat),
        5 * num_sessions (checkedRows df (featureList df af)).length ≤ i →
          ((assignSessions (checkedRows df (featureList df af)))[i]?).map Row2.session_id =
            ((checkedRows df (featureList df af))[i]?).map (fun _ => none)) ∧
    (∀ (df : DF) (af : Option (List String)) (s : Nat),
        (∃ r ∈ assignSessions (checkedRows df (featureList df af)),
            r.session_id = some s) ↔
          s < num_sessions (checkedRows df (featureList df af)).length) ∧
    (∀ (df : DF) (sim : Bool) (af : Option (List String)),
        sim = true → hasTimestamp (featureList df af) = true →
          (process_transactions df sim af).rows.map
              (fun r => r.r2.risk_velocity_sim) =
            (process_transactions df sim af).rows.map (fun r =>
              match r.r2.txn_count_sim with
              | some c => decide (3 ≤ c)
              | none => false)) ∧
    ((process_transactions df17 true none).rows.map
        (fun r => (r.r2.session_id, r.r2.txn_count_sim, r.r2.risk_velocity_sim,
          r.r2.sim_timestamp)) =
      [(some 0, some 1, false, some 0), (some 0, some 2, false, some 10),
       (some 0, some 3, true, some 20), (some 0, some 4, true, some 30),
       (some 0, some 5, true, some 40), (some 1, some 1, false, some 500),
       (some 1, some 2, false, some 510), (some 1, some 3, true, some 520),
       (some 1, some 4, true, some 530), (some 1, some 5, true, some 540),
       (some 2, some 1, false, some 1000), (some 2, some 2, false, some 1010),
       (some 2, some 3, true, some 1020), (some 2, some 4, true, some 1030),
       (some 2, some 5, true, some 1040), (none, none, false, some 1500),
       (none, none, false, some 1600)]) := by
  refine ⟨?_, ?_, ?_, ?_, ?_⟩
  · intro df af i h
    have h5 := five_num_sessions_le (checkedRows df (featureList df af)).length
    have hlen : i < (checkedRows df (featureList df af)).length := lt_of_lt_of_le h h5
    have hb5 : i / 5 * 5 < (checkedRows df (featureList df af)).length :=
      lt_of_le_of_lt (Nat.div_mul_le_self i 5) hlen
    rw [assignSessions_getElem?, List.getElem?_eq_getElem hlen,
      List.getElem?_eq_getElem hb5]
    simp only [Option.map_some']
    constructor
    · simp only [assignOne]
      rw [if_pos h]
    · simp only [assignOne]
      rw [if_pos h]
      simp only [baseTime, List.getElem?_eq_getElem hb5]
  · intro df af i h
    rw [assignSessions_getElem?]
    cases hi : (checkedRows df (featureList df af))[i]? with
    | none => rfl
    | some r =>
      simp only [Option.map_some']
      simp only [assignOne]
      rw [if_neg (Nat.not_lt.mpr h)]
  · intro df af s
    constructor
    · rintro ⟨r, hr, hs⟩
      rcases List.mem_map.mp hr with ⟨p, _, rfl⟩
      by_cases hp : p.1 < 5 * num_sessions (checkedRows df (featureList df af)).length
      · have : (assignOne (checkedRows df (featureList df af))
            (num_sessions (checkedRows df (featureList df af)).length) p.1 p.2).session_id =
            some (p.1 / 5) := by
          simp only [assignOne]
          rw [if_pos hp]
        rw [this] at hs
        have hs5 : s = p.1 / 5 := by
          injection hs with h
          omega
        rw [hs5]
        exact (Nat.div_lt_iff_lt_mul (by norm_num)).mpr (by omega)
      · have : (assignOne (checkedRows df (featureList df af))
            (num_sessions (checkedRows df (featureList df af)).length) p.1 p.2).session_id =
            none := by
          simp only [assignOne]
          rw [if_neg hp]
        rw [this] at hs
        exact absurd hs (by simp)
    · intro hs
      have h5s : 5 * s < 5 * num_sessions (checkedRows df (featureList df af)).length := by
        omega
      have hlen : 5 * s < (checkedRows df (featureList df af)).length :=
        lt_of_lt_of_le h5s (five_num_sessions_le _)
      obtain ⟨r1, hr1⟩ :
          ∃ r1, (checkedRows df (featureList df af))[5 * s]? = some r1 := by
        rw [List.getElem?_eq_getElem hlen]
        exact ⟨_, rfl⟩
      refine ⟨assignOne (checkedRows df (featureList df af))
        (num_sessions (checkedRows df (featureList df af)).length) (5 * s) r1, ?_, ?_⟩
      · apply List.getElem?_mem (n := 5 * s)
        rw [assignSessions_getElem?, hr1]
        rfl
      · simp only [assignOne]
        rw [if_pos h5s]
        have : 5 * s / 5 = s := Nat.mul_div_cancel_left s (by norm_num)
        rw [this]
  · intro df sim af h1 h2
    apply List.map_congr_left
    intro r hr
    obtain ⟨r2, hr2, rfl⟩ := mem_process_rows df sim af r hr
    have hc : (sim && hasTimestamp (featureList df af)) = true := by
      rw [h1, h2]
      rfl
    have hsim : r2 ∈ simStage (checkedRows df (featureList df af)) := by
      unfold rowsStage2 at hr2
      rw [hc] at hr2
      simpa using hr2
    exact simStage_velocity _ r2 hsim
  · decide

/-- C5 witness: the session-assignment law applied to the concrete
17-record batch at position 2 (the 3rd record of session 0). -/
theorem C5_session_simulation_witness :
    ((assignSessions (checkedRows df17 (featureList df17 none)))[2]?).map Row2.session_id =
        some (some (2 / 5)) ∧
      ((assignSessions (checkedRows df17 (featureList df17 none)))[2]?).map Row2.sim_timestamp =
        ((checkedRows df17 (featureList df17 none))[2 / 5 * 5]?).map
          (fun r0 => some (r0.txn.timestamp + 10 * (2 % 5))) :=
  C5_session_simulation.1 df17 none 2 (by decide)

theorem buildRow_amount (fs : List String) (all pre : List Txn) (t : Txn)
    (ha : hasAmount fs = true) :
    (buildRow fs all pre t).risk_amount = riskAmount (groupAmounts all t) t.amount := by
  simp only [buildRow, ha, if_true]

theorem process_risk_amount (df : DF) (sim : Bool) (af : Option (List String))
    (ha : hasAmount (featureList df af) = true) :
    (process_transactions df sim af).rows.map (fun r => r.r2.base.risk_amount) =
      (process_transactions df sim af).rows.map (fun r =>
        riskAmount (groupAmounts (sortedTxns df (featureList df af)) r.r2.base.txn)
          r.r2.base.txn.amount) := by
  apply List.map_congr_left
  intro r hr
  obtain ⟨r2, hr2, rfl⟩ := mem_process_rows df sim af r hr
  obtain ⟨p, t, hbt⟩ := mem_checkedRows df _ r2.base (mem_rowsStage2_base df sim af r2 hr2)
  show r2.base.risk_amount =
    riskAmount (groupAmounts (sortedTxns df (featureList df af)) r2.base.txn)
      r2.base.txn.amount
  rw [hbt, buildRow_amount _ _ _ _ ha, buildRow_txn]

/-- C7: with the amount feature present, every record's amount check is the
per-account z-score test: on a zero-variance group (single record or
constant amounts, where the z-score is defined as 0) the check never fires,
and on a positive-variance group it fires iff
(value − group mean) / group standard deviation ≥ 1; on amounts
[100, 100, 100] the variance is 0 and the check never fires, while on
[10, 10, 1000] the last record's z-score exceeds 1 and it is the only
record whose check fires. -/
theorem C7_amount_zscore :
    (∀ (xs : List ℚ) (x : ℚ), sampleVar xs = 0 → riskAmount xs x = false) ∧
    (∀ (xs : List ℚ) (x : ℚ), 0 < sampleVar xs →
        (riskAmount xs x = true ↔
          (1 : ℝ) ≤ ((x : ℝ) - (mean xs : ℝ)) / Real.sqrt ((sampleVar xs : ℝ)))) ∧
    (∀ (df : DF) (sim : Bool) (af : Option (List String)),
        hasAmount (featureList df af) = true →
          (process_transactions df sim af).rows.map (fun r => r.r2.base.risk_amount) =
            (process_transactions df sim af).rows.map (fun r =>
              riskAmount (groupAmounts (sortedTxns df (featureList df af)) r.r2.base.txn)
                r.r2.base.txn.amount)) ∧
    (sampleVar [100, 100, 100] = 0 ∧ riskAmount [100, 100, 100] 100 = false) ∧
    ((process_transactions dfA false none).rows.map (fun r => r.r2.base.risk_amount) =
      [false, false, false, false, false, true]) ∧
    ((1 : ℝ) < ((1000 : ℝ) - ((mean [10, 10, 1000] : ℚ) : ℝ)) /
      Real.sqrt ((sampleVar [10, 10, 1000] : ℚ) : ℝ)) := by
  have hmean : mean [10, 10, 1000] = 340 := by norm_num [mean, qsum]
  have hvar : sampleVar [10, 10, 1000] = 326700 := by norm_num [sampleVar, mean, qsum]
  refine ⟨?_, ?_, ?_, ?_, ?_, ?_⟩
  · intro xs x h
    simp [riskAmount, h]
  · intro xs x hv
    have hvR : (0 : ℝ) < (sampleVar xs : ℝ) := by exact_mod_cast hv
    have hs : 0 < Real.sqrt ((sampleVar xs : ℝ)) := Real.sqrt_pos.mpr hvR
    rw [one_le_div hs, Real.sqrt_le_iff]
    simp only [riskAmount, Bool.and_eq_true, decide_eq_true_eq]
    constructor
    · rintro ⟨⟨_, h1⟩, h2⟩
      constructor
      · rw [sub_nonneg]
        exact_mod_cast h1
      · exact_mod_cast h2
    · rintro ⟨h1, h2⟩
      refine ⟨⟨hv, ?_⟩, ?_⟩
      · rw [sub_nonneg] at h1
        exact_mod_cast h1
      · exact_mod_cast h2
  · exact process_risk_amount
  · constructor
    · norm_num [sampleVar, mean, qsum]
    · norm_num [riskAmount, sampleVar, mean, qsum]
  · rw [process_risk_amount dfA false none (by decide)]
    have e1 : riskAmount [(100 : ℚ), 100, 100] 100 = false := by
      norm_num [riskAmount, sampleVar, mean, qsum]
    have e2 : riskAmount [(10 : ℚ), 10, 1000] 10 = false := by
      norm_num [riskAmount, sampleVar, mean, qsum]
    have e3 : riskAmount [(10 : ℚ), 10, 1000] 1000 = true := by
      norm_num [riskAmount, sampleVar, mean, qsum]
    show [riskAmount [(100 : ℚ), 100, 100] 100, riskAmount [(100 : ℚ), 100, 100] 100,
        riskAmount [(100 : ℚ), 100, 100] 100, riskAmount [(10 : ℚ), 10, 1000] 10,
        riskAmount [(10 : ℚ), 10, 1000] 10, riskAmount [(10 : ℚ), 10, 1000] 1000] =
      [false, false, false, false, false, true]
    rw [e1, e2, e3]
  · rw [hmean, hvar]
    have hsq : ((326700 : ℚ) : ℝ) = 326700 := by norm_num
    have hs : 0 < Real.sqrt ((326700 : ℚ) : ℝ) := by
      rw [Real.sqrt_pos, hsq]
      norm_num
    rw [one_lt_div hs, hsq]
    have h340 : ((1000 : ℝ) - ((340 : ℚ) : ℝ)) = 660 := by norm_num
    rw [h340, Real.sqrt_lt' (by norm_num)]
    norm_num

/-- C7 witness: the zero-variance law applied at the empty group, and the
process-level z-score law applied at the concrete amount batch. -/
theorem C7_amount_zscore_witness :
    riskAmount [] 0 = false ∧
      ((process_transactions dfA false none).rows.map (fun r => r.r2.base.risk_amount) =
        (process_transactions dfA false none).rows.map (fun r =>
          riskAmount (groupAmounts (sortedTxns dfA (featureList dfA none)) r.r2.base.txn)
            r.r2.base.txn.amount)) :=
  ⟨C7_amount_zscore.1 [] 0 (by simp [sampleVar, qsum]),
    C7_amount_zscore.2.2.1 dfA false none (by decide)⟩

theorem buildRow_offhour (fs : List String) (all pre : List Txn) (t : Txn)
    (ht : hasTimestamp fs = true) :
    (buildRow fs all pre t).hour = hourOf t.timestamp ∧
      (buildRow fs all pre t).dominant_hour = dominantHour (groupHours all t) ∧
      (buildRow fs all pre t).risk_off_hour =
        (hourOf t.timestamp != dominantHour (groupHours all t)) := by
  refine ⟨?_, ?_, ?_⟩ <;> simp [buildRow, ht]

theorem buildRow_no_ts (fs : List String) (all pre : List Txn) (t : Txn)
    (ht : hasTimestamp fs = false) :
    (buildRow fs all pre t).hour = 12 ∧ (buildRow fs all pre t).risk_off_hour = false := by
  constructor <;> simp [buildRow, ht]

theorem offhour_not_active (fs : List String) (sim : Bool)
    (ht : hasTimestamp fs = false) :
    ("risk_off_hour", "Transaction at unusual time") ∉ activeRisksAll fs sim := by
  intro hmem
  unfold activeRisksAll at hmem
  rcases List.mem_append.mp hmem with h | h
  · unfold activeRisksBase at h
    rcases List.mem_append.mp h with h | h
    · rcases List.mem_append.mp h with h | h
      · rcases List.mem_append.mp h with h | h
        · rcases List.mem_append.mp h with h | h
          · have := mem_ite_singleton h
            simp at this
          · have := mem_ite_singleton h
            simp at this
        · have := mem_ite_singleton h
          simp at this
      · have := mem_ite_singleton h
        simp at this
    · rw [ht] at h
      simp at h
  · rw [ht, Bool.and_false] at h
    simp at h

/-- C8: with temporal stamps present, each account's dominant hour is the
hour-of-day (0..23) with the highest transaction count, ties broken toward
the smallest such hour (the row that sorts first in the stable
descending-count sort), and the off-hour check fires on a record iff its
hour differs from its account's dominant hour; for one account with hours
[9, 9, 9, 14] the dominant hour is 9 and only the hour-14 record fires;
without temporal stamps every record is assigned default hour 12 and the
off-hour check is inactive with an all-false column. -/
theorem C8_dominant_hour :
    (∀ hs : List Nat,
        dominantHour hs < 24 ∧
          (∀ h, h < 24 → hourCount hs h ≤ hourCount hs (dominantHour hs)) ∧
          (∀ h, h < dominantHour hs → hourCount hs h < hourCount hs (dominantHour hs))) ∧
    (∀ (df : DF) (sim : Bool) (af : Option (List String)),
        hasTimestamp (featureList df af) = true →
          (process_transactions df sim af).rows.map
              (fun r => (r.r2.base.hour, r.r2.base.dominant_hour, r.r2.base.risk_off_hour)) =
            (process_transactions df sim af).rows.map (fun r =>
              (hourOf r.r2.base.txn.timestamp,
                dominantHour (groupHours (sortedTxns df (featureList df af)) r.r2.base.txn),
                hourOf r.r2.base.txn.timestamp !=
                  dominantHour (groupHours (sortedTxns df (featureList df af)) r.r2.base.txn)))) ∧
    (∀ (df : DF) (sim : Bool) (af : Option (List String)),
        hasTimestamp (featureList df af) = false →
          (("risk_off_hour", "Transaction at unusual time") ∉
              (process_transactions df sim af).active_risks) ∧
            (process_transactions df sim af).rows.map
                (fun r => (r.r2.base.hour, r.r2.base.risk_off_hour)) =
              (process_transactions df sim af).rows.map (fun _ => (12, false))) ∧
    (dominantHour [9, 9, 9, 14] = 9 ∧
      (process_transactions dfH false none).rows.map
          (fun r => (r.r2.base.hour, r.r2.base.risk_off_hour)) =
        [(9, false), (9, false), (9, false), (14, true)]) := by
  refine ⟨dominantHour_spec, ?_, ?_, by decide, by decide⟩
  · intro df sim af ht
    apply List.map_congr_left
    intro r hr
    obtain ⟨r2, hr2, rfl⟩ := mem_process_rows df sim af r hr
    obtain ⟨p, t, hbt⟩ := mem_checkedRows df _ r2.base (mem_rowsStage2_base df sim af r2 hr2)
    obtain ⟨e1, e2, e3⟩ := buildRow_offhour (featureList df af)
      (sortedTxns df (featureList df af)) p t ht
    show (r2.base.hour, r2.base.dominant_hour, r2.base.risk_off_hour) =
      (hourOf r2.base.txn.timestamp,
        dominantHour (groupHours (sortedTxns df (featureList df af)) r2.base.txn),
        hourOf r2.base.txn.timestamp !=
          dominantHour (groupHours (sortedTxns df (featureList df af)) r2.base.txn))
    rw [hbt, buildRow_txn, e1, e2, e3]
  · intro df sim af ht
    constructor
    · rw [process_active_eq]
      exact offhour_not_active _ sim ht
    · apply List.map_congr_left
      intro r hr
      obtain ⟨r2, hr2, rfl⟩ := mem_process_rows df sim af r hr
      obtain ⟨p, t, hbt⟩ := mem_checkedRows df _ r2.base (mem_rowsStage2_base df sim af r2 hr2)
      obtain ⟨e1, e2⟩ := buildRow_no_ts (featureList df af)
        (sortedTxns df (featureList df af)) p t ht
      show (r2.base.hour, r2.base.risk_off_hour) = (12, false)
      rw [hbt, e1, e2]

/-- C8 witness: the off-hour law applied at the concrete hour batch and the
no-timestamp degradation applied at the amount-only batch. -/
theorem C8_dominant_hour_witness :
    ((process_transactions dfH false none).rows.map
        (fun r => (r.r2.base.hour, r.r2.base.dominant_hour, r.r2.base.risk_off_hour)) =
      (process_transactions dfH false none).rows.map (fun r =>
        (hourOf r.r2.base.txn.timestamp,
          dominantHour (groupHours (sortedTxns dfH (featureList dfH none)) r.r2.base.txn),
          hourOf r.r2.base.txn.timestamp !=
            dominantHour (groupHours (sortedTxns dfH (featureList dfH none)) r.r2.base.txn)))) ∧
      ((("risk_off_hour", "Transaction at unusual time") ∉
          (process_transactions dfA false none).active_risks) ∧
        (process_transactions dfA false none).rows.map
            (fun r => (r.r2.base.hour, r.r2.base.risk_off_hour)) =
          (process_transactions dfA false none).rows.map (fun _ => (12, false))) :=
  ⟨C8_dominant_hour.2.1 dfH false none (by decide),
    C8_dominant_hour.2.2.1 dfA false none (by decide)⟩
